import Mathlib

/-
Verification of the seismic-ingestion handler (src/handler.py) against its
natural-language specification.

The Python module is shallowly embedded as executable Lean definitions:
- JSON values are modelled by the inductive `Value` (null, booleans, integers,
  strings and exact decimals; nested arrays and objects are not needed by any
  claim and are outside the model).
- Python dicts (insertion ordered) are modelled as association lists
  (`RecordMap`) with `dictGet`, `dictSet` (update in place, append when new)
  and `dictSetdefault` (append when absent), matching the dict semantics the
  handler relies on.
- `decimal.Decimal` values are modelled by `Dec` (integer mantissa times a
  power of ten); `Dec.parse` models the Decimal string constructor restricted
  to its finite numeric core (optional sign, digits with an optional point,
  optional exponent; no whitespace padding, no Infinity or NaN forms, which
  the handler never receives from numeric fields).
- `datetime` values are modelled by `DT` (civil fields plus an optional fixed
  UTC offset in minutes).  `datetime.fromisoformat` is modelled on the
  documented ISO core accepted by all supported runtimes: a ten character
  date, an arbitrary separator character, HH:MM with optional seconds, an
  optional fractional part of exactly three or six digits, and an optional
  +HH:MM or -HH:MM offset.  `datetime.strptime` with the two fallback formats
  of `parse_iso_z` is modelled field by field with the range checks the
  CPython format regexes and the datetime constructor perform.
  `astimezone(timezone.utc)` is modelled by `astimezoneUtc`; a naive datetime
  is interpreted at the ambient fixed local offset `L` (minutes), which every
  statement quantifies over.  The model treats the calendar as unbounded; the
  datetime MINYEAR/MAXYEAR overflow corner at years 1 and 9999 is outside the
  model.
- Effects are made explicit: the HTTP outcome per year is an input
  (`HttpOutcome`), the paginated table scan is an input (a list of pages, a
  pagination token being present exactly on the non-final pages), failure of
  the delete and insert phases are inputs (`Option String` exception
  messages), the current time and the generated uuid strings are parameters,
  and the handler result carries the trace of table operations performed.
-/

namespace Sismos

/-! ## Exact decimals (`decimal.Decimal`) -/

/-- Model of a `decimal.Decimal` value: `mant * 10 ^ exp`. -/
structure Dec where
  mant : Int
  exp : Int
  deriving DecidableEq

/-- The rational value of a modelled decimal. -/
def Dec.toRat (d : Dec) : ℚ := (d.mant : ℚ) * (10 : ℚ) ^ d.exp

abbrev Chars := List Char

/-- Numeric value of a digit character. -/
def digVal (c : Char) : Nat := c.toNat - 48

/-- Value of a list of digit characters read in base ten. -/
def natOfDigits (cs : Chars) : Nat := cs.foldl (fun a c => a * 10 + digVal c) 0

/-- Maximal prefix of digit characters, and the remainder. -/
def takeDigitsRun : Chars → Chars × Chars
  | [] => ([], [])
  | c :: cs =>
    if c.isDigit then
      let r := takeDigitsRun cs
      (c :: r.1, r.2)
    else ([], c :: cs)

/-- Exponent tail of a Decimal literal: end of input, or `e`/`E`, an optional
sign and a nonempty digit run ending the input. -/
def parseDecExp (sgn : Int) (digs : Chars) (fracLen : Nat) : Chars → Option Dec
  | [] => some ⟨sgn * (natOfDigits digs : Int), -(fracLen : Int)⟩
  | e :: rest =>
    if e = 'e' ∨ e = 'E' then
      let signAndRest : Int × Chars :=
        match rest with
        | '+' :: r => (1, r)
        | '-' :: r => (-1, r)
        | _ => (1, rest)
      let ed := takeDigitsRun signAndRest.2
      if ed.1 = [] ∨ ed.2 ≠ [] then none
      else some ⟨sgn * (natOfDigits digs : Int),
        signAndRest.1 * (natOfDigits ed.1 : Int) - (fracLen : Int)⟩
    else none

/-- Model of the `Decimal` string constructor on its finite numeric core:
optional sign, then digits with an optional decimal point (at least one digit
overall), then an optional exponent. -/
def Dec.parse (cs : Chars) : Option Dec :=
  let signAndRest : Int × Chars :=
    match cs with
    | '+' :: r => (1, r)
    | '-' :: r => (-1, r)
    | _ => (1, cs)
  let ip := takeDigitsRun signAndRest.2
  match ip.2 with
  | '.' :: cs3 =>
    let fp := takeDigitsRun cs3
    if ip.1 = [] ∧ fp.1 = [] then none
    else parseDecExp signAndRest.1 (ip.1 ++ fp.1) fp.1.length fp.2
  | rest =>
    if ip.1 = [] then none
    else parseDecExp signAndRest.1 ip.1 0 rest

/-! ## JSON-ish values and dicts -/

/-- The value universe the handler manipulates.  Nested arrays and objects
never reach the code paths the claims are about and are outside the model. -/
inductive Value where
  | null : Value
  | bool : Bool → Value
  | int : Int → Value
  | str : String → Value
  | dec : Dec → Value
  deriving DecidableEq

/-- A Python dict with string keys, as an insertion-ordered association
list. -/
abbrev RecordMap := List (String × Value)

/-- `d[k]` / `d.get(k)`: first binding of the key. -/
def dictGet : RecordMap → String → Option Value
  | [], _ => none
  | (k', v) :: rest, k => if k' = k then some v else dictGet rest k

/-- `d[k] = v`: update the existing binding in place, else append. -/
def dictSet : RecordMap → String → Value → RecordMap
  | [], k, v => [(k, v)]
  | (k', v') :: rest, k, v =>
    if k' = k then (k, v) :: rest else (k', v') :: dictSet rest k v

/-- `d.setdefault(k, v)`: keep the dict unchanged when the key is present
(whatever its value), append the default binding otherwise. -/
def dictSetdefault (r : RecordMap) (k : String) (v : Value) : RecordMap :=
  if (dictGet r k).isSome then r else r ++ [(k, v)]

/-- Python `str()` on a modelled value, as fed to `Decimal(str(val))`.
For a modelled decimal a mantissa–exponent literal is used; it denotes the
same decimal value as the CPython rendering, which is all the conversion
path can observe. -/
def pyStr : Value → String
  | Value.null => "None"
  | Value.bool true => "True"
  | Value.bool false => "False"
  | Value.int n => toString n
  | Value.str s => s
  | Value.dec d => toString d.mant ++ "e" ++ toString d.exp

/-- `val in (None, "")` in `safe_convert_numbers`. -/
def isNullOrEmpty (v : Value) : Bool :=
  match v with
  | Value.null => true
  | Value.str s => s = ""
  | _ => false

/-- The conversion attempt of `safe_convert_numbers`: `Decimal(val)` for a
string, `Decimal(str(val))` otherwise; `none` models the swallowed
exception. -/
def tryDecimal : Value → Option Dec
  | Value.str s => Dec.parse s.data
  | v => Dec.parse (pyStr v).data

/-- The four known numeric keys of `safe_convert_numbers`. -/
def numericKeys : List String := ["magnitud", "profundidad", "latitud", "longitud"]

/-- One iteration of the `safe_convert_numbers` loop body for key `k`. -/
def convertKey (r : RecordMap) (k : String) : RecordMap :=
  match dictGet r k with
  | none => r
  | some v =>
    if isNullOrEmpty v then r
    else
      match tryDecimal v with
      | some d => dictSet r k (Value.dec d)
      | none => r

/-- `safe_convert_numbers(item)`: try to coerce each of the four numeric
keys, leaving the original value on any failure. -/
def safe_convert_numbers (item : RecordMap) : RecordMap :=
  numericKeys.foldl convertKey item

/-- The value of a numeric key after `safe_convert_numbers`, as a function
of its value before. -/
def convertResult : Option Value → Option Value
  | none => none
  | some v =>
    if isNullOrEmpty v then some v
    else
      match tryDecimal v with
      | some d => some (Value.dec d)
      | none => some v

/-! ## datetime model -/

/-- A `datetime.datetime`: civil fields plus an optional fixed UTC offset in
minutes (`none` for a naive value). -/
structure DT where
  year : Nat
  month : Nat
  day : Nat
  hour : Nat
  minute : Nat
  second : Nat
  usec : Nat
  off : Option Int
  deriving DecidableEq

/-- Gregorian leap year rule. -/
def isLeap (y : Nat) : Bool := (y % 4 = 0 && y % 100 ≠ 0) || y % 400 = 0

/-- Length of a month. -/
def daysInMonth (y m : Nat) : Nat :=
  if m = 2 then (if isLeap y then 29 else 28)
  else if m = 4 ∨ m = 6 ∨ m = 9 ∨ m = 11 then 30
  else 31

/-- The validity checks the `datetime` constructor performs (field ranges,
day against month length, timezone offset strictly under one day). -/
def DT.validB (d : DT) : Bool :=
  1 ≤ d.year && d.year ≤ 9999 && 1 ≤ d.month && d.month ≤ 12 &&
  1 ≤ d.day && d.day ≤ daysInMonth d.year d.month &&
  d.hour ≤ 23 && d.minute ≤ 59 && d.second ≤ 59 && d.usec ≤ 999999 &&
  (match d.off with
   | none => true
   | some o => decide (-1440 < o) && decide (o < 1440))

/-- Construct a datetime, failing as the constructor would on out-of-range
fields. -/
def validate (d : DT) : Option DT := if d.validB then some d else none

/-- Two digit characters as a number. -/
def dig2 (a b : Char) : Nat := 10 * digVal a + digVal b

/-- Four digit characters as a number. -/
def dig4 (a b c d : Char) : Nat := 10 * (10 * (10 * digVal a + digVal b) + digVal c) + digVal d

/-- The ten character `YYYY-MM-DD` date prefix of `fromisoformat`. -/
def parseDate : Chars → Option (Nat × Nat × Nat × Chars)
  | y1 :: y2 :: y3 :: y4 :: '-' :: m1 :: m2 :: '-' :: d1 :: d2 :: rest =>
    if y1.isDigit && y2.isDigit && y3.isDigit && y4.isDigit &&
       m1.isDigit && m2.isDigit && d1.isDigit && d2.isDigit then
      some (dig4 y1 y2 y3 y4, dig2 m1 m2, dig2 d1 d2, rest)
    else none
  | _ => none

/-- Fractional second part after the point: exactly three or six digits,
scaled to microseconds. -/
def parseFrac (cs : Chars) : Option (Nat × Chars) :=
  let r := takeDigitsRun cs
  if r.1.length = 3 then some (natOfDigits r.1 * 1000, r.2)
  else if r.1.length = 6 then some (natOfDigits r.1, r.2)
  else none

/-- The `HH:MM[:SS[.fff[fff]]]` time part of `fromisoformat`. -/
def parseTime : Chars → Option (Nat × Nat × Nat × Nat × Chars)
  | h1 :: h2 :: ':' :: m1 :: m2 :: rest =>
    if h1.isDigit && h2.isDigit && m1.isDigit && m2.isDigit then
      match rest with
      | ':' :: s1 :: s2 :: rest2 =>
        if s1.isDigit && s2.isDigit then
          match rest2 with
          | '.' :: rest3 =>
            match parseFrac rest3 with
            | some (us, rest4) => some (dig2 h1 h2, dig2 m1 m2, dig2 s1 s2, us, rest4)
            | none => none
          | _ => some (dig2 h1 h2, dig2 m1 m2, dig2 s1 s2, 0, rest2)
        else none
      | _ => some (dig2 h1 h2, dig2 m1 m2, 0, 0, rest)
    else none
  | _ => none

/-- The optional trailing `+HH:MM` / `-HH:MM` offset of `fromisoformat`,
in minutes. -/
def parseOffset : Chars → Option (Option Int)
  | [] => some none
  | '+' :: h1 :: h2 :: ':' :: m1 :: m2 :: [] =>
    if h1.isDigit && h2.isDigit && m1.isDigit && m2.isDigit then
      some (some ((dig2 h1 h2 * 60 + dig2 m1 m2 : Nat) : Int))
    else none
  | '-' :: h1 :: h2 :: ':' :: m1 :: m2 :: [] =>
    if h1.isDigit && h2.isDigit && m1.isDigit && m2.isDigit then
      some (some (-((dig2 h1 h2 * 60 + dig2 m1 m2 : Nat) : Int)))
    else none
  | _ => none

/-- Model of `datetime.fromisoformat` on its documented ISO core: date,
optional time after an arbitrary separator character, optional offset. -/
def fromisoformat (cs : Chars) : Option DT :=
  match parseDate cs with
  | none => none
  | some (y, mo, dy, rest) =>
    match rest with
    | [] => validate ⟨y, mo, dy, 0, 0, 0, 0, none⟩
    | _ :: timepart =>
      match parseTime timepart with
      | none => none
      | some (hh, mi, ss, us, rest2) =>
        match parseOffset rest2 with
        | none => none
        | some off => validate ⟨y, mo, dy, hh, mi, ss, us, off⟩

/-- One or two digit characters, greedily, as `strptime` field regexes
match them. -/
def take12 : Chars → Option (Nat × Chars)
  | [] => none
  | a :: rest =>
    if a.isDigit then
      match rest with
      | b :: rest2 => if b.isDigit then some (dig2 a b, rest2) else some (digVal a, rest)
      | [] => some (digVal a, [])
    else none

/-- Model of `datetime.strptime(s, "%Y-%m-%dT%H:%M:%S.%fZ")` followed by
`.replace(tzinfo=timezone.utc)`. -/
def strptime_f (cs : Chars) : Option DT :=
  match cs with
  | y1 :: y2 :: y3 :: y4 :: '-' :: r1 =>
    if y1.isDigit && y2.isDigit && y3.isDigit && y4.isDigit then
      match take12 r1 with
      | some (mo, '-' :: r2) =>
        match take12 r2 with
        | some (dy, 'T' :: r3) =>
          match take12 r3 with
          | some (hh, ':' :: r4) =>
            match take12 r4 with
            | some (mi, ':' :: r5) =>
              match take12 r5 with
              | some (ss, '.' :: r6) =>
                match takeDigitsRun r6 with
                | (run, ['Z']) =>
                  if 1 ≤ run.length ∧ run.length ≤ 6 then
                    validate ⟨dig4 y1 y2 y3 y4, mo, dy, hh, mi, ss,
                      natOfDigits run * 10 ^ (6 - run.length), some 0⟩
                  else none
                | _ => none
              | _ => none
            | _ => none
          | _ => none
        | _ => none
      | _ => none
    else none
  | _ => none

/-- Model of `datetime.strptime(s, "%Y-%m-%dT%H:%M:%SZ")` followed by
`.replace(tzinfo=timezone.utc)`. -/
def strptime_s (cs : Chars) : Option DT :=
  match cs with
  | y1 :: y2 :: y3 :: y4 :: '-' :: r1 =>
    if y1.isDigit && y2.isDigit && y3.isDigit && y4.isDigit then
      match take12 r1 with
      | some (mo, '-' :: r2) =>
        match take12 r2 with
        | some (dy, 'T' :: r3) =>
          match take12 r3 with
          | some (hh, ':' :: r4) =>
            match take12 r4 with
            | some (mi, ':' :: r5) =>
              match take12 r5 with
              | some (ss, ['Z']) =>
                validate ⟨dig4 y1 y2 y3 y4, mo, dy, hh, mi, ss, 0, some 0⟩
              | _ => none
            | _ => none
          | _ => none
        | _ => none
      | _ => none
    else none
  | _ => none

/-- `s.replace("Z", "+00:00")`: every occurrence of the character `Z` is
replaced. -/
def replaceZ : Chars → Chars
  | [] => []
  | c :: cs =>
    if c = 'Z' then '+' :: '0' :: '0' :: ':' :: '0' :: '0' :: replaceZ cs
    else c :: replaceZ cs

/-- The string branch of `parse_iso_z`: `fromisoformat` on the
Z-substituted string, then the two `strptime` fallbacks on the original. -/
def parseIsoZchars (cs : Chars) : Option DT :=
  match fromisoformat (replaceZ cs) with
  | some d => some d
  | none =>
    match strptime_f cs with
    | some d => some d
    | none => strptime_s cs

/-- `parse_iso_z(s)` on the value read from the record.  A missing key,
`None`, an empty string and every other falsy value hit the `if not s`
guard; a truthy non-string raises inside both `try` blocks and falls through
to `return None` as well. -/
def parse_iso_z : Option Value → Option DT
  | some (Value.str s) => if s = "" then none else parseIsoZchars s.data
  | _ => none

/-! ## UTC conversion and formatting -/

/-- Step a civil date forward one day. -/
def nextDay : Nat × Nat × Nat → Nat × Nat × Nat
  | (y, m, d) =>
    if d < daysInMonth y m then (y, m, d + 1)
    else if m < 12 then (y, m + 1, 1)
    else (y + 1, 1, 1)

/-- Step a civil date back one day. -/
def prevDay : Nat × Nat × Nat → Nat × Nat × Nat
  | (y, m, d) =>
    if 1 < d then (y, m, d - 1)
    else if 1 < m then (y, m - 1, daysInMonth y (m - 1))
    else (y - 1, 12, 31)

/-- Iterate `nextDay`. -/
def addDaysN : Nat → Nat × Nat × Nat → Nat × Nat × Nat
  | 0, t => t
  | n + 1, t => addDaysN n (nextDay t)

/-- Iterate `prevDay`. -/
def subDaysN : Nat → Nat × Nat × Nat → Nat × Nat × Nat
  | 0, t => t
  | n + 1, t => subDaysN n (prevDay t)

/-- Shift a civil date by a signed number of days. -/
def addDays (n : Int) (t : Nat × Nat × Nat) : Nat × Nat × Nat :=
  if 0 ≤ n then addDaysN n.toNat t else subDaysN (-n).toNat t

/-- Model of `d.astimezone(timezone.utc)`: subtract the offset (the ambient
local offset `L`, in minutes, for a naive value), carrying whole days into
the civil date; the result is aware with offset zero. -/
def astimezoneUtc (L : Int) (d : DT) : DT :=
  let off : Int := d.off.getD L
  let total : Int := (d.hour : Int) * 60 + (d.minute : Int) - off
  let rem : Nat := (total.emod 1440).toNat
  let ymd := addDays (total.ediv 1440) (d.year, d.month, d.day)
  ⟨ymd.1, ymd.2.1, ymd.2.2, rem / 60, rem % 60, d.second, d.usec, some 0⟩

/-- Digit character of `n % 10`. -/
def digitChar (n : Nat) : Char := Char.ofNat (48 + n % 10)

/-- Two zero-padded digits. -/
def pad2 (n : Nat) : Chars := [digitChar (n / 10), digitChar n]

/-- Four zero-padded digits. -/
def pad4 (n : Nat) : Chars :=
  [digitChar (n / 1000), digitChar (n / 100), digitChar (n / 10), digitChar n]

/-- Six zero-padded digits. -/
def pad6 (n : Nat) : Chars :=
  [digitChar (n / 100000), digitChar (n / 10000), digitChar (n / 1000),
   digitChar (n / 100), digitChar (n / 10), digitChar n]

/-- `d.isoformat().replace("+00:00", "Z")` on an aware UTC value: seconds
precision when the microsecond is zero, microsecond precision otherwise,
and the offset rendered as a literal `Z`. -/
def isoformatZ (d : DT) : String :=
  ⟨pad4 d.year ++ '-' :: pad2 d.month ++ '-' :: pad2 d.day ++
   'T' :: pad2 d.hour ++ ':' :: pad2 d.minute ++ ':' :: pad2 d.second ++
   (if d.usec = 0 then [] else '.' :: pad6 d.usec) ++ ['Z']⟩

/-! ## unir_fecha_hora -/

/-- The argument checks `fecha.replace(hour=..., minute=..., second=...,
microsecond=...)` performs; its failure is the only exception source of the
overlay `try` block inside the modelled calendar range. -/
def overlayOk (t : DT) : Bool :=
  t.hour ≤ 23 && t.minute ≤ 59 && t.second ≤ 59 && t.usec ≤ 999999

/-- The overlay of `unir_fecha_hora`: the clock fields of `hora` placed on
`fecha` (keeping the date and tzinfo of `fecha`), falling back to `fecha`
itself when the replacement would raise. -/
def overlayWithFallback (fecha hora : DT) : DT :=
  if overlayOk hora then
    { fecha with hour := hora.hour, minute := hora.minute,
                 second := hora.second, usec := hora.usec }
  else fecha

/-- `unir_fecha_hora(fecha_str, hora_str)`: `None` when the date does not
parse; the date alone, converted to UTC and Z-formatted, when the time does
not parse; otherwise the overlay (with its exception fallback), converted
to UTC and Z-formatted. -/
def unir_fecha_hora (L : Int) (fecha_v hora_v : Option Value) : Option String :=
  match parse_iso_z fecha_v with
  | none => none
  | some fecha =>
    match parse_iso_z hora_v with
    | none => some (isoformatZ (astimezoneUtc L fecha))
    | some hora => some (isoformatZ (astimezoneUtc L (overlayWithFallback fecha hora)))

/-! ## Record normalization -/

/-- The per-record body of the handler loop: default the id, attach the
merged timestamp (null when absent), stamp the processing time `now`, and
coerce the numeric fields.  `fresh` is the `str(uuid.uuid4())` value drawn
for this record. -/
def normalizeRecord (L : Int) (now fresh : String) (rec : RecordMap) : RecordMap :=
  let r0 := dictSetdefault rec "id" (Value.str fresh)
  let fv := unir_fecha_hora L (dictGet r0 "fecha_local") (dictGet r0 "hora_local")
  let r1 := dictSet r0 "fecha_hora_local"
    (match fv with
     | some s => Value.str s
     | none => Value.null)
  let r2 := dictSet r1 "procesado_en" (Value.str now)
  safe_convert_numbers r2

/-! ## Fetcher (`obtener_sismos_por_anio`) -/

/-- The body of an HTTP 200 answer as seen through `r.json()`: either a
parsed array of records, or a parse failure with the stringified
exception.  Parseable non-array bodies never occur upstream and are outside
the model. -/
inductive JsonBody where
  | arr : List RecordMap → JsonBody
  | malformed : String → JsonBody
  deriving DecidableEq

/-- The outcome of the single `requests.get` call for a year: a response
with a status code and body, or a network-level exception with its
stringified message. -/
inductive HttpOutcome where
  | response : Nat → JsonBody → HttpOutcome
  | exn : String → HttpOutcome

/-- The classification result dict of `obtener_sismos_por_anio`; the
`error` key is present exactly on the failure paths. -/
structure FetchResult where
  ok : Bool
  error : Option String
  items : List RecordMap
  deriving DecidableEq

/-- `obtener_sismos_por_anio(year)` as a function of the HTTP outcome. -/
def obtener_sismos_por_anio (o : HttpOutcome) : FetchResult :=
  match o with
  | HttpOutcome.exn e => ⟨false, some e, []⟩
  | HttpOutcome.response st b =>
    if st = 200 then
      match b with
      | JsonBody.arr items => ⟨true, none, items⟩
      | JsonBody.malformed e => ⟨false, some e, []⟩
    else if st = 404 then ⟨true, none, []⟩
    else ⟨false, some ("HTTP " ++ toString st), []⟩

/-! ## Table delete phase (`limpiar_tabla`) -/

/-- The scan-and-delete loop of `limpiar_tabla` over the remaining scan
pages.  The first argument is the item list of the current response; a
pagination token (`LastEvaluatedKey`) is present exactly when further pages
remain.  The loop first breaks on an empty item list, then deletes every
item carrying an `id` key, then breaks when no token is present.  The
result is the list of deleted keys in order. -/
def limpiarLoop : List (List RecordMap) → List RecordMap → List Value
  | [], items =>
    if items.isEmpty then []
    else items.filterMap (fun it => dictGet it "id")
  | next :: rs, items =>
    if items.isEmpty then []
    else items.filterMap (fun it => dictGet it "id") ++ limpiarLoop rs next

/-- `limpiar_tabla()` as a function of the sequence of scan responses (the
empty sequence degenerately denotes an empty table). -/
def limpiar_tabla : List (List RecordMap) → List Value
  | [] => []
  | p :: rest => limpiarLoop rest p

/-- The keys the full scan exposes: every `id` of every item of every
page. -/
def allScannedIds (pages : List (List RecordMap)) : List Value :=
  pages.flatten.filterMap (fun it => dictGet it "id")

/-! ## Handler (`lambda_handler`) -/

/-- `range(start, end + 1)` over integers. -/
def yearRange (s e : Int) : List Int :=
  (List.range (e + 1 - s).toNat).map (fun (i : Nat) => s + (i : Int))

/-- The per-invocation accumulator of the year loop. -/
structure YearAcc where
  years_processed : List (Int × Nat)
  errors : List (Int × String)
  all_items : List RecordMap
  fetched : List Int
  deriving DecidableEq

/-- The year loop of `lambda_handler`: classify each fetch, record an error
entry and continue on failure, otherwise normalize the items (drawing the
uuid for record `i` of year `y` from `fresh y i`), record the year with its
record count and accumulate the records.  `fetched` is the trace of years
requested, in order. -/
def processYears (fetch : Int → HttpOutcome) (now : String)
    (fresh : Int → Nat → String) (L : Int) : List Int → YearAcc
  | [] => ⟨[], [], [], []⟩
  | y :: ys =>
    let r := obtener_sismos_por_anio (fetch y)
    let rest := processYears fetch now fresh L ys
    if r.ok then
      let processed := r.items.mapIdx (fun i rec => normalizeRecord L now (fresh y i) rec)
      ⟨(y, processed.length) :: rest.years_processed, rest.errors,
        processed ++ rest.all_items, y :: rest.fetched⟩
    else
      ⟨rest.years_processed, (y, r.error.getD "") :: rest.errors,
        rest.all_items, y :: rest.fetched⟩

/-- The summary dict returned in the 200 body. -/
structure Resumen where
  years_processed : List (Int × Nat)
  total_inserted : Nat
  errors : List (Int × String)
  deriving DecidableEq

/-- The JSON body of the response: the summary on success, an `error` dict
on failure. -/
inductive RespBody where
  | ok : Resumen → RespBody
  | err : String → RespBody
  deriving DecidableEq

/-- The Lambda proxy response. -/
structure Response where
  statusCode : Nat
  body : RespBody
  deriving DecidableEq

/-- A table operation attempted by the handler. -/
inductive Op where
  | scanDelete : Op
  | putBatch : Op
  deriving DecidableEq

/-- The observable outcome of one invocation: the response, the trace of
table operations attempted, and the trace of years fetched. -/
structure HandlerResult where
  response : Response
  ops : List Op
  fetched : List Int
  deriving DecidableEq

/-- `lambda_handler` after the request ints are read: swap a reversed
range, run the year loop, then the delete phase and the insert phase.
`deleteErr` (resp. `insertErr`) is the exception message of the delete
(resp. insert) phase, `none` when the phase completes; a completed insert
reports as many writes as there are accumulated records. -/
def lambda_handler (start0 end0 : Int) (fetch : Int → HttpOutcome)
    (deleteErr insertErr : Option String) (now : String)
    (fresh : Int → Nat → String) (L : Int) : HandlerResult :=
  let s := if end0 < start0 then end0 else start0
  let e := if end0 < start0 then start0 else end0
  let acc := processYears fetch now fresh L (yearRange s e)
  match deleteErr with
  | some msg =>
    ⟨⟨500, RespBody.err ("Error limpiando tabla: " ++ msg)⟩, [Op.scanDelete], acc.fetched⟩
  | none =>
    match insertErr with
    | some msg =>
      ⟨⟨500, RespBody.err ("Error al insertar en DynamoDB: " ++ msg)⟩,
        [Op.scanDelete, Op.putBatch], acc.fetched⟩
    | none =>
      ⟨⟨200, RespBody.ok ⟨acc.years_processed, acc.all_items.length, acc.errors⟩⟩,
        [Op.scanDelete, Op.putBatch], acc.fetched⟩

/-! ## Definitions taken from the wording of the spec (for the claims the
code diverges from) -/

/-- Modelled from the spec: an ISO-8601 UTC timestamp with millisecond
precision and a literal Z suffix, as claim C2 words the output format. -/
def specFormatMillis (d : DT) : String :=
  ⟨pad4 d.year ++ '-' :: pad2 d.month ++ '-' :: pad2 d.day ++
   'T' :: pad2 d.hour ++ ':' :: pad2 d.minute ++ ':' :: pad2 d.second ++
   '.' :: [digitChar (d.usec / 100000), digitChar (d.usec / 10000), digitChar (d.usec / 1000)] ++
   ['Z']⟩

/-- Modelled from the spec: the record carries a non-empty string `id`, as
the invariant of claim C1 words it. -/
def hasNonEmptyId (r : RecordMap) : Bool :=
  match dictGet r "id" with
  | some (Value.str s) => !(s = "")
  | _ => false

/-! ## Dictionary lemmas -/

theorem dictGet_set_self (r : RecordMap) (k : String) (v : Value) :
    dictGet (dictSet r k v) k = some v := by
  induction r with
  | nil => simp [dictSet, dictGet]
  | cons p rest ih =>
    by_cases h : p.1 = k <;> simp [dictSet, dictGet, h, ih]

theorem dictGet_set_ne (r : RecordMap) (k k' : String) (v : Value) (h : k ≠ k') :
    dictGet (dictSet r k v) k' = dictGet r k' := by
  induction r with
  | nil => simp [dictSet, dictGet, h]
  | cons p rest ih =>
    by_cases hp : p.1 = k
    · simp [dictSet, dictGet, hp, h]
    · simp [dictSet, dictGet, hp, ih]

theorem dictGet_append (r1 r2 : RecordMap) (k : String) :
    dictGet (r1 ++ r2) k =
      (match dictGet r1 k with
       | some v => some v
       | none => dictGet r2 k) := by
  induction r1 with
  | nil => simp [dictGet]
  | cons p rest ih =>
    by_cases hp : p.1 = k <;> simp [dictGet, hp, ih]

theorem dictGet_setdefault_self (r : RecordMap) (k : String) (v : Value) :
    dictGet (dictSetdefault r k v) k = some ((dictGet r k).getD v) := by
  unfold dictSetdefault
  cases hg : dictGet r k with
  | none => simp [hg, dictGet_append, dictGet]
  | some w => simp [hg]

theorem dictGet_setdefault_ne (r : RecordMap) (k k' : String) (v : Value) (h : k ≠ k') :
    dictGet (dictSetdefault r k v) k' = dictGet r k' := by
  unfold dictSetdefault
  split
  · rfl
  · rw [dictGet_append]
    cases hg : dictGet r k' with
    | none => simp [dictGet, h]
    | some w => rfl

theorem dictGet_convertKey_self (r : RecordMap) (k : String) :
    dictGet (convertKey r k) k = convertResult (dictGet r k) := by
  unfold convertKey convertResult
  cases hg : dictGet r k with
  | none => simp [hg]
  | some v =>
    by_cases hn : isNullOrEmpty v
    · simp [hg, hn]
    · cases ht : tryDecimal v <;> simp [hg, hn, ht, dictGet_set_self]

theorem dictGet_convertKey_ne (r : RecordMap) (k k' : String) (h : k ≠ k') :
    dictGet (convertKey r k) k' = dictGet r k' := by
  unfold convertKey
  cases hg : dictGet r k with
  | none => rfl
  | some v =>
    by_cases hn : isNullOrEmpty v
    · simp [hn]
    · cases ht : tryDecimal v <;> simp [hn, ht, dictGet_set_ne r k k' _ h]

theorem safe_convert_get_of_not_numeric (r : RecordMap) (k : String)
    (h : ¬ k ∈ numericKeys) : dictGet (safe_convert_numbers r) k = dictGet r k := by
  simp [numericKeys] at h
  obtain ⟨h1, h2, h3, h4⟩ := h
  simp only [safe_convert_numbers, numericKeys, List.foldl]
  rw [dictGet_convertKey_ne _ _ _ (Ne.symm h4),
      dictGet_convertKey_ne _ _ _ (Ne.symm h3),
      dictGet_convertKey_ne _ _ _ (Ne.symm h2),
      dictGet_convertKey_ne _ _ _ (Ne.symm h1)]

theorem safe_convert_get_numeric (r : RecordMap) (k : String)
    (h : k ∈ numericKeys) : dictGet (safe_convert_numbers r) k = convertResult (dictGet r k) := by
  simp only [safe_convert_numbers, numericKeys, List.foldl]
  simp [numericKeys] at h
  rcases h with h | h | h | h <;> subst h
  · rw [dictGet_convertKey_ne _ _ _ (by decide), dictGet_convertKey_ne _ _ _ (by decide),
        dictGet_convertKey_ne _ _ _ (by decide), dictGet_convertKey_self]
  · rw [dictGet_convertKey_ne _ _ _ (by decide), dictGet_convertKey_ne _ _ _ (by decide),
        dictGet_convertKey_self, dictGet_convertKey_ne _ _ _ (by decide)]
  · rw [dictGet_convertKey_ne _ _ _ (by decide), dictGet_convertKey_self,
        dictGet_convertKey_ne _ _ _ (by decide), dictGet_convertKey_ne _ _ _ (by decide)]
  · rw [dictGet_convertKey_self, dictGet_convertKey_ne _ _ _ (by decide),
        dictGet_convertKey_ne _ _ _ (by decide), dictGet_convertKey_ne _ _ _ (by decide)]

theorem convertResult_isSome (o : Option Value) :
    (convertResult o).isSome = o.isSome := by
  cases o with
  | none => rfl
  | some v =>
    unfold convertResult
    by_cases hn : isNullOrEmpty v
    · simp [hn]
    · cases ht : tryDecimal v <;> simp [hn, ht]

theorem safe_convert_isSome (r : RecordMap) (k : String) :
    (dictGet (safe_convert_numbers r) k).isSome = (dictGet r k).isSome := by
  by_cases h : k ∈ numericKeys
  · rw [safe_convert_get_numeric r k h, convertResult_isSome]
  · rw [safe_convert_get_of_not_numeric r k h]

/-! ## Normalization lemmas -/

theorem normalize_get_id (L : Int) (now fresh : String) (rec : RecordMap) :
    dictGet (normalizeRecord L now fresh rec) "id" =
      some ((dictGet rec "id").getD (Value.str fresh)) := by
  unfold normalizeRecord
  rw [safe_convert_get_of_not_numeric _ _ (by decide),
      dictGet_set_ne _ _ _ _ (by decide),
      dictGet_set_ne _ _ _ _ (by decide),
      dictGet_setdefault_self]

theorem normalize_get_procesado (L : Int) (now fresh : String) (rec : RecordMap) :
    dictGet (normalizeRecord L now fresh rec) "procesado_en" = some (Value.str now) := by
  unfold normalizeRecord
  rw [safe_convert_get_of_not_numeric _ _ (by decide), dictGet_set_self]

theorem normalize_get_fhl (L : Int) (now fresh : String) (rec : RecordMap) :
    dictGet (normalizeRecord L now fresh rec) "fecha_hora_local" =
      some (match unir_fecha_hora L (dictGet rec "fecha_local") (dictGet rec "hora_local") with
            | some s => Value.str s
            | none => Value.null) := by
  unfold normalizeRecord
  rw [safe_convert_get_of_not_numeric _ _ (by decide),
      dictGet_set_ne _ _ _ _ (by decide),
      dictGet_set_self,
      dictGet_setdefault_ne _ _ _ _ (by decide),
      dictGet_setdefault_ne _ _ _ _ (by decide)]

/-! ## Datetime lemmas -/

theorem addDays_zero (t : Nat × Nat × Nat) : addDays 0 t = t := by
  simp [addDays, addDaysN]

theorem validate_validB {x d : DT} (h : validate x = some d) :
    d = x ∧ x.validB = true := by
  unfold validate at h
  split at h
  · cases h; exact ⟨rfl, by assumption⟩
  · cases h

theorem fromisoformat_validB {cs : Chars} {d : DT}
    (h : fromisoformat cs = some d) : d.validB = true := by
  unfold fromisoformat at h
  split at h
  · cases h
  · split at h
    · exact ((validate_validB h).1 ▸ (validate_validB h).2)
    · split at h
      · cases h
      · split at h
        · cases h
        · exact ((validate_validB h).1 ▸ (validate_validB h).2)

theorem strptime_f_validB {cs : Chars} {d : DT}
    (h : strptime_f cs = some d) : d.validB = true := by
  unfold strptime_f at h
  repeat' split at h
  all_goals first
    | cases h
    | exact ((validate_validB h).1 ▸ (validate_validB h).2)

theorem strptime_s_validB {cs : Chars} {d : DT}
    (h : strptime_s cs = some d) : d.validB = true := by
  unfold strptime_s at h
  repeat' split at h
  all_goals first
    | cases h
    | exact ((validate_validB h).1 ▸ (validate_validB h).2)

theorem parse_iso_z_validB {v : Option Value} {d : DT}
    (h : parse_iso_z v = some d) : d.validB = true := by
  unfold parse_iso_z at h
  split at h
  · split at h
    · cases h
    · unfold parseIsoZchars at h
      split at h
      · cases h; exact fromisoformat_validB (by assumption)
      · split at h
        · cases h; exact strptime_f_validB (by assumption)
        · exact strptime_s_validB h
  · cases h

theorem validB_bounds {d : DT} (h : d.validB = true) :
    d.hour ≤ 23 ∧ d.minute ≤ 59 ∧ d.second ≤ 59 ∧ d.usec ≤ 999999 := by
  unfold DT.validB at h
  simp only [Bool.and_eq_true, decide_eq_true_eq] at h
  refine ⟨?_, ?_, ?_, ?_⟩ <;> tauto

theorem overlayOk_of_validB {d : DT} (h : d.validB = true) : overlayOk d = true := by
  obtain ⟨h1, h2, h3, h4⟩ := validB_bounds h
  simp [overlayOk, h1, h2, h3, h4]

theorem astimezoneUtc_eq_self (L : Int) (d : DT) (ho : d.off = some 0)
    (hh : d.hour ≤ 23) (hm : d.minute ≤ 59) : astimezoneUtc L d = d := by
  cases d with
  | mk y mo dy h mi s us off =>
    simp only at ho hh hm
    subst ho
    simp only [astimezoneUtc, Option.getD_some]
    have e0 : ((h : Int) * 60 + (mi : Int)) - 0 = ((h * 60 + mi : Nat) : Int) := by
      push_cast
      ring
    have hnn : (0 : Int) ≤ ((h * 60 + mi : Nat) : Int) := Int.natCast_nonneg _
    have hlt : ((h * 60 + mi : Nat) : Int) < 1440 := by
      have : h * 60 + mi < 1440 := by omega
      exact_mod_cast this
    have hdiv : (((h * 60 + mi : Nat) : Int)).ediv 1440 = 0 :=
      Int.ediv_eq_zero_of_lt hnn hlt
    have hmod : (((h * 60 + mi : Nat) : Int)).emod 1440 = ((h * 60 + mi : Nat) : Int) :=
      Int.emod_eq_of_lt hnn hlt
    rw [e0, hdiv, hmod, Int.toNat_natCast, addDays_zero]
    have hq : (h * 60 + mi) / 60 = h := by omega
    have hr : (h * 60 + mi) % 60 = mi := by omega
    rw [hq, hr]

/-! ## Year loop lemmas -/

theorem processYears_spec (fetch : Int → HttpOutcome) (now : String)
    (fresh : Int → Nat → String) (L : Int) (years : List Int) :
    (processYears fetch now fresh L years).years_processed =
      years.filterMap (fun y =>
        let r := obtener_sismos_por_anio (fetch y)
        if r.ok then some (y, r.items.length) else none)
    ∧ (processYears fetch now fresh L years).errors =
      years.filterMap (fun y =>
        let r := obtener_sismos_por_anio (fetch y)
        if r.ok then none else some (y, r.error.getD ""))
    ∧ (processYears fetch now fresh L years).all_items =
      years.flatMap (fun y =>
        let r := obtener_sismos_por_anio (fetch y)
        if r.ok then r.items.mapIdx (fun i rec => normalizeRecord L now (fresh y i) rec)
        else [])
    ∧ (processYears fetch now fresh L years).fetched = years := by
  induction years with
  | nil => exact ⟨rfl, rfl, rfl, rfl⟩
  | cons y ys ih =>
    obtain ⟨ih1, ih2, ih3, ih4⟩ := ih
    by_cases hok : (obtener_sismos_por_anio (fetch y)).ok
    · refine ⟨?_, ?_, ?_, ?_⟩ <;>
        simp [processYears, hok, ih1, ih2, ih3, ih4]
    · refine ⟨?_, ?_, ?_, ?_⟩ <;>
        simp [processYears, hok, ih1, ih2, ih3, ih4]

theorem mem_yearRange (s e y : Int) : y ∈ yearRange s e ↔ s ≤ y ∧ y ≤ e := by
  unfold yearRange
  constructor
  · intro h
    rcases List.mem_map.mp h with ⟨i, hi, rfl⟩
    have := List.mem_range.mp hi
    omega
  · intro hy
    exact List.mem_map.mpr ⟨(y - s).toNat, List.mem_range.mpr (by omega), by omega⟩

theorem pairwise_yearRange (s e : Int) : List.Pairwise (· < ·) (yearRange s e) := by
  unfold yearRange
  rw [List.pairwise_map]
  exact (List.pairwise_lt_range _).imp (fun h => by omega)

theorem nodup_yearRange (s e : Int) : (yearRange s e).Nodup :=
  (pairwise_yearRange s e).imp (fun h => ne_of_lt h)

/-! ## Delete phase lemmas -/

theorem limpiarLoop_spec (rest : List (List RecordMap)) (p : List RecordMap)
    (hne : ∀ q ∈ (p :: rest).dropLast, q ≠ []) :
    limpiarLoop rest p = allScannedIds (p :: rest) := by
  induction rest generalizing p with
  | nil =>
    by_cases hp : p.isEmpty
    · have hpe : p = [] := List.isEmpty_iff.mp hp
      subst hpe
      rfl
    · unfold limpiarLoop allScannedIds
      simp [hp]
  | cons nextp rs ih =>
    have hp : p ≠ [] := hne p (by simp)
    unfold limpiarLoop
    rw [if_neg (by simpa [List.isEmpty_iff] using hp)]
    rw [ih nextp (fun q hq => hne q (by simpa using Or.inr hq))]
    unfold allScannedIds
    simp

theorem limpiar_tabla_spec (pages : List (List RecordMap))
    (hne : ∀ q ∈ pages.dropLast, q ≠ []) :
    limpiar_tabla pages = allScannedIds pages := by
  cases pages with
  | nil => rfl
  | cons p rest => exact limpiarLoop_spec rest p hne

/-! ## Claims -/

/-- Claim C1, as stated, is false on the code: `r.setdefault("id", ...)`
only tests key presence, so a raw record carrying an empty `id` keeps that
empty `id` and the normalized record violates the non-empty-id invariant. -/
theorem claim_C1_counterexample :
    dictGet (normalizeRecord 0 "2025-01-01T00:00:00Z" "3f2b57aa-uuid"
        [("id", Value.str "")]) "id" = some (Value.str "")
    ∧ hasNonEmptyId (normalizeRecord 0 "2025-01-01T00:00:00Z" "3f2b57aa-uuid"
        [("id", Value.str "")]) = false := by
  decide

/-- Claim C1 (amended): the normalized record always has an `id` key; the
raw `id` value is kept unchanged whenever the key is present, even when it
is empty or null, and the freshly generated string is assigned exactly when
the key is absent.  Hence the normalized `id` is a non-empty string
whenever the key was absent and the generated string is non-empty. -/
theorem claim_C1_theorem (L : Int) (now fresh : String) (rec : RecordMap) :
    dictGet (normalizeRecord L now fresh rec) "id" =
      some ((dictGet rec "id").getD (Value.str fresh))
    ∧ (dictGet rec "id" = none → fresh ≠ "" →
        hasNonEmptyId (normalizeRecord L now fresh rec) = true) := by
  refine ⟨normalize_get_id L now fresh rec, ?_⟩
  intro h hf
  unfold hasNonEmptyId
  rw [normalize_get_id L now fresh rec, h]
  simp [hf]

/-- Witness for claim C1 at a record without an `id` key. -/
theorem claim_C1_witness :
    dictGet (normalizeRecord 0 "2025-01-01T00:00:00Z" "3f2b57aa-uuid"
        [("lugar", Value.str "Lima")]) "id" =
      some ((dictGet [("lugar", Value.str "Lima")] "id").getD (Value.str "3f2b57aa-uuid"))
    ∧ hasNonEmptyId (normalizeRecord 0 "2025-01-01T00:00:00Z" "3f2b57aa-uuid"
        [("lugar", Value.str "Lima")]) = true :=
  ⟨(claim_C1_theorem 0 "2025-01-01T00:00:00Z" "3f2b57aa-uuid" _).1,
   (claim_C1_theorem 0 "2025-01-01T00:00:00Z" "3f2b57aa-uuid" _).2 (by decide) (by decide)⟩

/-- Claim C2, as stated, is false on the code: the merged timestamp is not
formatted with millisecond precision.  `isoformat()` keeps all six
microsecond digits when the microsecond is nonzero and prints no fractional
part at all when it is zero; in both cases the output differs from the
three-digit millisecond rendering the claim describes. -/
theorem claim_C2_counterexample :
    unir_fecha_hora 0 (some (Value.str "2024-01-02T00:00:00Z"))
        (some (Value.str "2000-01-01T03:04:05.123456Z"))
      = some "2024-01-02T03:04:05.123456Z"
    ∧ "2024-01-02T03:04:05.123456Z" ≠ specFormatMillis ⟨2024, 1, 2, 3, 4, 5, 123456, some 0⟩
    ∧ unir_fecha_hora 0 (some (Value.str "2024-01-02T00:00:00Z"))
        (some (Value.str "2000-01-01T03:04:05Z"))
      = some "2024-01-02T03:04:05Z"
    ∧ "2024-01-02T03:04:05Z" ≠ specFormatMillis ⟨2024, 1, 2, 3, 4, 5, 0, some 0⟩ := by
  decide

/-- Claim C2 (amended): for every raw record whose date field and time field
both parse as ISO-8601 UTC instants, `fecha_hora_local` is the instant
formed by the date's year/month/day with the time's
hour/minute/second/microsecond overlaid, in UTC, formatted as ISO-8601 with
a literal `Z` suffix, with seconds precision when the combined microsecond
is zero and microsecond (not millisecond) precision otherwise. -/
theorem claim_C2_theorem (L : Int) (fv hv : Option Value) (df dt : DT)
    (hf : parse_iso_z fv = some df) (hh : parse_iso_z hv = some dt)
    (hfo : df.off = some 0) (_hho : dt.off = some 0) :
    unir_fecha_hora L fv hv =
      some (isoformatZ ⟨df.year, df.month, df.day,
        dt.hour, dt.minute, dt.second, dt.usec, some 0⟩) := by
  have hvt := parse_iso_z_validB hh
  obtain ⟨b1, b2, b3, b4⟩ := validB_bounds hvt
  have hok : overlayOk dt = true := overlayOk_of_validB hvt
  unfold unir_fecha_hora
  rw [hf, hh]
  show some (isoformatZ (astimezoneUtc L (overlayWithFallback df dt))) = _
  have hov : overlayWithFallback df dt =
      { df with hour := dt.hour, minute := dt.minute,
                second := dt.second, usec := dt.usec } := by
    unfold overlayWithFallback
    rw [hok]
    simp
  rw [hov,
    astimezoneUtc_eq_self L _ (by simpa using hfo) (by simpa using b1) (by simpa using b2)]
  cases df with
  | mk y mo dy h mi s us off =>
    simp only at hfo
    subst hfo
    rfl

/-- Witness for claim C2 at two concrete UTC instants. -/
theorem claim_C2_witness :
    parse_iso_z (some (Value.str "2024-03-10T00:00:00Z")) =
      some ⟨2024, 3, 10, 0, 0, 0, 0, some 0⟩
    ∧ parse_iso_z (some (Value.str "2000-01-01T07:08:09.250000Z")) =
      some ⟨2000, 1, 1, 7, 8, 9, 250000, some 0⟩
    ∧ unir_fecha_hora 0 (some (Value.str "2024-03-10T00:00:00Z"))
        (some (Value.str "2000-01-01T07:08:09.250000Z"))
      = some (isoformatZ ⟨2024, 3, 10, 7, 8, 9, 250000, some 0⟩) :=
  ⟨by decide, by decide,
   claim_C2_theorem 0 _ _ ⟨2024, 3, 10, 0, 0, 0, 0, some 0⟩
     ⟨2000, 1, 1, 7, 8, 9, 250000, some 0⟩ (by decide) (by decide) rfl rfl⟩

/-- Claim C3: when the date field does not parse the merged timestamp is
absent; when the date parses and the time does not, the result is the date
instant converted to UTC with ISO-8601/Z formatting; and the exception
fallback of the overlay yields that same date-only instant (the overlay
falling back exactly when the clock-field replacement would raise). -/
theorem claim_C3_theorem (L : Int) (fv hv : Option Value) :
    (parse_iso_z fv = none → unir_fecha_hora L fv hv = none)
    ∧ (∀ d, parse_iso_z fv = some d → parse_iso_z hv = none →
        unir_fecha_hora L fv hv = some (isoformatZ (astimezoneUtc L d)))
    ∧ (∀ d t, overlayOk t = false → overlayWithFallback d t = d)
    ∧ (∀ d t, parse_iso_z fv = some d → parse_iso_z hv = some t →
        unir_fecha_hora L fv hv =
          some (isoformatZ (astimezoneUtc L (overlayWithFallback d t)))) := by
  refine ⟨?_, ?_, ?_, ?_⟩
  · intro h
    unfold unir_fecha_hora
    rw [h]
  · intro d h1 h2
    unfold unir_fecha_hora
    rw [h1, h2]
  · intro d t h
    unfold overlayWithFallback
    rw [h]
    simp
  · intro d t h1 h2
    unfold unir_fecha_hora
    rw [h1, h2]

/-- Witness for claim C3: an unparseable date, an unparseable time, and an
out-of-range clock forcing the overlay fallback. -/
theorem claim_C3_witness :
    unir_fecha_hora 0 (some (Value.str "not-a-date"))
        (some (Value.str "2020-01-01T00:00:00Z")) = none
    ∧ unir_fecha_hora 0 (some (Value.str "2024-01-02T00:00:00Z"))
        (some (Value.str "oops"))
      = some (isoformatZ (astimezoneUtc 0 ⟨2024, 1, 2, 0, 0, 0, 0, some 0⟩))
    ∧ overlayWithFallback ⟨2024, 1, 2, 0, 0, 0, 0, some 0⟩ ⟨2000, 1, 1, 99, 0, 0, 0, none⟩
      = ⟨2024, 1, 2, 0, 0, 0, 0, some 0⟩ :=
  ⟨(claim_C3_theorem 0 (some (Value.str "not-a-date"))
      (some (Value.str "2020-01-01T00:00:00Z"))).1 (by decide),
   (claim_C3_theorem 0 (some (Value.str "2024-01-02T00:00:00Z"))
      (some (Value.str "oops"))).2.1 _ (by decide) (by decide),
   (claim_C3_theorem 0 none none).2.2.1 _ _ (by decide)⟩

/-- Claim C4: for each of the four numeric keys, an absent key stays
absent; a null or empty value is left untouched; a convertible value is
replaced by the exact decimal (`"4"` becoming a decimal equal to the
integer 4); and a value whose conversion fails (such as `"N/A"`) is left
untouched, never dropped. -/
theorem claim_C4_theorem (item : RecordMap) (k : String) (hk : k ∈ numericKeys) :
    (dictGet item k = none → dictGet (safe_convert_numbers item) k = none)
    ∧ (∀ v, dictGet item k = some v → isNullOrEmpty v = true →
        dictGet (safe_convert_numbers item) k = some v)
    ∧ (∀ v, dictGet item k = some v → isNullOrEmpty v = false → tryDecimal v = none →
        dictGet (safe_convert_numbers item) k = some v)
    ∧ (∀ v d, dictGet item k = some v → isNullOrEmpty v = false → tryDecimal v = some d →
        dictGet (safe_convert_numbers item) k = some (Value.dec d))
    ∧ tryDecimal (Value.str "4") = some ⟨4, 0⟩
    ∧ Dec.toRat ⟨4, 0⟩ = ((4 : Int) : ℚ)
    ∧ tryDecimal (Value.str "N/A") = none := by
  have hbase := safe_convert_get_numeric item k hk
  refine ⟨?_, ?_, ?_, ?_, by decide, ?_, by decide⟩
  · intro h
    rw [hbase, h]
    rfl
  · intro v h hn
    rw [hbase, h]
    unfold convertResult
    simp [hn]
  · intro v h hn ht
    rw [hbase, h]
    unfold convertResult
    simp [hn, ht]
  · intro v d h hn ht
    rw [hbase, h]
    unfold convertResult
    simp [hn, ht]
  · norm_num [Dec.toRat]

/-- Witness for claim C4 on a record with one convertible and one
unconvertible numeric field. -/
theorem claim_C4_witness :
    dictGet (safe_convert_numbers
        [("magnitud", Value.str "4"), ("latitud", Value.str "N/A")]) "magnitud"
      = some (Value.dec ⟨4, 0⟩)
    ∧ dictGet (safe_convert_numbers
        [("magnitud", Value.str "4"), ("latitud", Value.str "N/A")]) "latitud"
      = some (Value.str "N/A")
    ∧ dictGet (safe_convert_numbers
        [("magnitud", Value.str "4"), ("latitud", Value.str "N/A")]) "profundidad"
      = none :=
  ⟨(claim_C4_theorem [("magnitud", Value.str "4"), ("latitud", Value.str "N/A")]
      "magnitud" (by decide)).2.2.2.1 (Value.str "4") ⟨4, 0⟩
      (by decide) (by decide) (by decide),
   (claim_C4_theorem [("magnitud", Value.str "4"), ("latitud", Value.str "N/A")]
      "latitud" (by decide)).2.2.1 (Value.str "N/A") (by decide) (by decide) (by decide),
   (claim_C4_theorem [("magnitud", Value.str "4"), ("latitud", Value.str "N/A")]
      "profundidad" (by decide)).1 (by decide)⟩

/-- Claim C5, as stated, is false on the code: the absence of a pagination
token is not the only terminal condition of the scan-and-delete loop.  The
loop also breaks as soon as a scan response carries zero items, so a page
sequence whose first response is empty but carries a token leaves the items
of the later pages undeleted. -/
theorem claim_C5_counterexample :
    limpiar_tabla [[], [[("id", Value.str "a")]]] = []
    ∧ allScannedIds [[], [[("id", Value.str "a")]]] = [Value.str "a"] := by
  decide

/-- Claim C5 (amended): the delete phase follows pagination tokens and
deletes, by its key, every item of every scanned page, terminating either
when a scan response has no pagination token or as soon as a scan response
carries zero items; provided every response before the last is non-empty,
every scanned item is deleted, and a table with zero items is a no-op. -/
theorem claim_C5_theorem (pages : List (List RecordMap))
    (hne : ∀ q ∈ pages.dropLast, q ≠ []) :
    limpiar_tabla pages = allScannedIds pages
    ∧ limpiar_tabla [[]] = []
    ∧ limpiar_tabla [] = [] :=
  ⟨limpiar_tabla_spec pages hne, rfl, rfl⟩

/-- Witness for claim C5 on a two-page scan. -/
theorem claim_C5_witness :
    limpiar_tabla [[[("id", Value.str "a")], [("id", Value.str "b")]],
        [[("id", Value.str "c")]]]
      = allScannedIds [[[("id", Value.str "a")], [("id", Value.str "b")]],
        [[("id", Value.str "c")]]]
    ∧ limpiar_tabla [[]] = []
    ∧ limpiar_tabla [] = [] :=
  claim_C5_theorem _ (by decide)

/-- Claim C6: a delete-phase exception yields a 500 response with the error
body and the insert is never attempted; an insert-phase exception yields a
500 response; when both phases complete the response is 200 with the
summary (whatever per-year errors it contains) and `total_inserted` equals
the number of accumulated records. -/
theorem claim_C6_theorem (start0 end0 : Int) (fetch : Int → HttpOutcome)
    (insertErr : Option String) (now : String) (fresh : Int → Nat → String) (L : Int) :
    (∀ msg, (lambda_handler start0 end0 fetch (some msg) insertErr now fresh L).response
        = ⟨500, RespBody.err ("Error limpiando tabla: " ++ msg)⟩)
    ∧ (∀ msg, Op.putBatch ∉ (lambda_handler start0 end0 fetch (some msg) insertErr now fresh L).ops)
    ∧ (∀ msg, (lambda_handler start0 end0 fetch none (some msg) now fresh L).response
        = ⟨500, RespBody.err ("Error al insertar en DynamoDB: " ++ msg)⟩)
    ∧ (lambda_handler start0 end0 fetch none none now fresh L).response
      = ⟨200, RespBody.ok
          ⟨(processYears fetch now fresh L (yearRange (min start0 end0) (max start0 end0))).years_processed,
           (processYears fetch now fresh L (yearRange (min start0 end0) (max start0 end0))).all_items.length,
           (processYears fetch now fresh L (yearRange (min start0 end0) (max start0 end0))).errors⟩⟩ := by
  have hs : (if end0 < start0 then end0 else start0) = min start0 end0 := by
    rw [Int.min_def]
    split <;> split <;> omega
  have he : (if end0 < start0 then start0 else end0) = max start0 end0 := by
    rw [Int.max_def]
    split <;> split <;> omega
  refine ⟨fun msg => rfl, fun msg => by simp [lambda_handler, Op], fun msg => rfl, ?_⟩
  simp only [lambda_handler, hs, he]

/-- Witness for claim C6 with a failing delete, a failing insert, and a
completed run. -/
theorem claim_C6_witness :
    (lambda_handler 2025 2025 (fun _ => HttpOutcome.response 404 (JsonBody.arr []))
        (some "boom") none "now" (fun _ _ => "u") 0).response
      = ⟨500, RespBody.err ("Error limpiando tabla: " ++ "boom")⟩
    ∧ Op.putBatch ∉ (lambda_handler 2025 2025
        (fun _ => HttpOutcome.response 404 (JsonBody.arr []))
        (some "boom") none "now" (fun _ _ => "u") 0).ops
    ∧ (lambda_handler 2025 2025 (fun _ => HttpOutcome.response 404 (JsonBody.arr []))
        none (some "ins") "now" (fun _ _ => "u") 0).response
      = ⟨500, RespBody.err ("Error al insertar en DynamoDB: " ++ "ins")⟩
    ∧ (lambda_handler 2025 2025 (fun _ => HttpOutcome.response 404 (JsonBody.arr []))
        none none "now" (fun _ _ => "u") 0).response
      = ⟨200, RespBody.ok
          ⟨(processYears (fun _ => HttpOutcome.response 404 (JsonBody.arr [])) "now"
              (fun _ _ => "u") 0 (yearRange (min 2025 2025) (max 2025 2025))).years_processed,
           (processYears (fun _ => HttpOutcome.response 404 (JsonBody.arr [])) "now"
              (fun _ _ => "u") 0 (yearRange (min 2025 2025) (max 2025 2025))).all_items.length,
           (processYears (fun _ => HttpOutcome.response 404 (JsonBody.arr [])) "now"
              (fun _ _ => "u") 0 (yearRange (min 2025 2025) (max 2025 2025))).errors⟩⟩ :=
  ⟨(claim_C6_theorem 2025 2025 _ none "now" (fun _ _ => "u") 0).1 "boom",
   (claim_C6_theorem 2025 2025 _ none "now" (fun _ _ => "u") 0).2.1 "boom",
   (claim_C6_theorem 2025 2025 _ none "now" (fun _ _ => "u") 0).2.2.1 "ins",
   (claim_C6_theorem 2025 2025 _ none "now" (fun _ _ => "u") 0).2.2.2⟩

/-- Claim C7: the fetch outcome classification of `obtener_sismos_por_anio`:
200 with a parsed array is ok with the items; 200 with an unparseable body
is a failure carrying the parse error; 404 is ok with no items; any other
status is a failure carrying `HTTP <status>`; a network exception is a
failure carrying the stringified exception. -/
theorem claim_C7_theorem (st : Nat) (items : List RecordMap) (e : String) (b : JsonBody) :
    obtener_sismos_por_anio (HttpOutcome.response 200 (JsonBody.arr items))
      = ⟨true, none, items⟩
    ∧ obtener_sismos_por_anio (HttpOutcome.response 200 (JsonBody.malformed e))
      = ⟨false, some e, []⟩
    ∧ obtener_sismos_por_anio (HttpOutcome.response 404 b) = ⟨true, none, []⟩
    ∧ (st ≠ 200 → st ≠ 404 → obtener_sismos_por_anio (HttpOutcome.response st b)
        = ⟨false, some ("HTTP " ++ toString st), []⟩)
    ∧ obtener_sismos_por_anio (HttpOutcome.exn e) = ⟨false, some e, []⟩ := by
  refine ⟨rfl, rfl, rfl, ?_, rfl⟩
  intro h1 h2
  simp only [obtener_sismos_por_anio]
  rw [if_neg h1, if_neg h2]

/-- Witness for claim C7 at status 503. -/
theorem claim_C7_witness :
    obtener_sismos_por_anio (HttpOutcome.response 503 (JsonBody.arr []))
      = ⟨false, some ("HTTP " ++ toString 503), []⟩ :=
  (claim_C7_theorem 503 [] "" (JsonBody.arr [])).2.2.2.1 (by decide) (by decide)

/-- Claim C8: over the requested range each year is recorded exactly once
(the range has no duplicates and the summary lists are images of it): a
year whose fetch is ok appears in `years_processed` with the number of
records produced and never in `errors`; a failed year appears in `errors`
with its message, never in `years_processed`, and only ok years contribute
records to the accumulated set. -/
theorem claim_C8_theorem (fetch : Int → HttpOutcome) (now : String)
    (fresh : Int → Nat → String) (L : Int) (s e : Int) :
    (processYears fetch now fresh L (yearRange s e)).years_processed =
      (yearRange s e).filterMap (fun y =>
        let r := obtener_sismos_por_anio (fetch y)
        if r.ok then some (y, r.items.length) else none)
    ∧ (processYears fetch now fresh L (yearRange s e)).errors =
      (yearRange s e).filterMap (fun y =>
        let r := obtener_sismos_por_anio (fetch y)
        if r.ok then none else some (y, r.error.getD ""))
    ∧ (processYears fetch now fresh L (yearRange s e)).all_items =
      (yearRange s e).flatMap (fun y =>
        let r := obtener_sismos_por_anio (fetch y)
        if r.ok then r.items.mapIdx (fun i rec => normalizeRecord L now (fresh y i) rec)
        else [])
    ∧ (yearRange s e).Nodup
    ∧ (∀ y, y ∈ yearRange s e → (obtener_sismos_por_anio (fetch y)).ok = true →
        (y, (obtener_sismos_por_anio (fetch y)).items.length)
          ∈ (processYears fetch now fresh L (yearRange s e)).years_processed
        ∧ ∀ msg, (y, msg) ∉ (processYears fetch now fresh L (yearRange s e)).errors)
    ∧ (∀ y, y ∈ yearRange s e → (obtener_sismos_por_anio (fetch y)).ok = false →
        (y, (obtener_sismos_por_anio (fetch y)).error.getD "")
          ∈ (processYears fetch now fresh L (yearRange s e)).errors
        ∧ ∀ c, (y, c) ∉ (processYears fetch now fresh L (yearRange s e)).years_processed) := by
  obtain ⟨h1, h2, h3, _⟩ := processYears_spec fetch now fresh L (yearRange s e)
  refine ⟨h1, h2, h3, nodup_yearRange s e, ?_, ?_⟩
  · intro y hy hok
    constructor
    · rw [h1]
      exact List.mem_filterMap.mpr ⟨y, hy, by simp [hok]⟩
    · intro msg hmem
      rw [h2] at hmem
      rcases List.mem_filterMap.mp hmem with ⟨y', hy', hfy⟩
      by_cases hok' : (obtener_sismos_por_anio (fetch y')).ok
      · simp [hok'] at hfy
      · simp [hok'] at hfy
        obtain ⟨hyy, _⟩ := hfy
        subst hyy
        simp [hok] at hok'
  · intro y hy hok
    constructor
    · rw [h2]
      exact List.mem_filterMap.mpr ⟨y, hy, by simp [hok]⟩
    · intro c hmem
      rw [h1] at hmem
      rcases List.mem_filterMap.mp hmem with ⟨y', hy', hfy⟩
      by_cases hok' : (obtener_sismos_por_anio (fetch y')).ok
      · simp [hok'] at hfy
        obtain ⟨hyy, _⟩ := hfy
        subst hyy
        simp [hok'] at hok
      · simp [hok'] at hfy

/-- Witness for claim C8: a two-year range where 2021 fails with HTTP 503
and 2022 succeeds via 404 with zero items. -/
theorem claim_C8_witness :
    (2022, (obtener_sismos_por_anio
        ((fun y => if y = 2021 then HttpOutcome.response 503 (JsonBody.arr [])
          else HttpOutcome.response 404 (JsonBody.arr [])) 2022)).items.length)
      ∈ (processYears
          (fun y => if y = 2021 then HttpOutcome.response 503 (JsonBody.arr [])
            else HttpOutcome.response 404 (JsonBody.arr []))
          "now" (fun _ _ => "u") 0 (yearRange 2021 2022)).years_processed
    ∧ (2021, (obtener_sismos_por_anio
        ((fun y => if y = 2021 then HttpOutcome.response 503 (JsonBody.arr [])
          else HttpOutcome.response 404 (JsonBody.arr [])) 2021)).error.getD "")
      ∈ (processYears
          (fun y => if y = 2021 then HttpOutcome.response 503 (JsonBody.arr [])
            else HttpOutcome.response 404 (JsonBody.arr []))
          "now" (fun _ _ => "u") 0 (yearRange 2021 2022)).errors :=
  ⟨((claim_C8_theorem _ "now" (fun _ _ => "u") 0 2021 2022).2.2.2.2.1 2022
      (by decide) (by decide)).1,
   ((claim_C8_theorem _ "now" (fun _ _ => "u") 0 2021 2022).2.2.2.2.2 2021
      (by decide) (by decide)).1⟩

/-- Claim C9: a request with `end_year < start_year` is processed over the
swapped inclusive range: the years fetched are exactly `yearRange end0
start0`, which is strictly ascending and contains exactly the integers
between the two bounds inclusively. -/
theorem claim_C9_theorem (start0 end0 : Int) (fetch : Int → HttpOutcome)
    (deleteErr insertErr : Option String) (now : String)
    (fresh : Int → Nat → String) (L : Int) (h : end0 < start0) :
    (lambda_handler start0 end0 fetch deleteErr insertErr now fresh L).fetched
      = yearRange end0 start0
    ∧ List.Pairwise (· < ·) (yearRange end0 start0)
    ∧ (∀ y : Int, y ∈ yearRange end0 start0 ↔ end0 ≤ y ∧ y ≤ start0) := by
  have hf := (processYears_spec fetch now fresh L (yearRange end0 start0)).2.2.2
  refine ⟨?_, pairwise_yearRange end0 start0, fun y => mem_yearRange end0 start0 y⟩
  cases deleteErr with
  | some msg => simp [lambda_handler, if_pos h, hf]
  | none =>
    cases insertErr with
    | some msg => simp [lambda_handler, if_pos h, hf]
    | none => simp [lambda_handler, if_pos h, hf]

/-- Witness for claim C9 on the reversed request 2024/2023. -/
theorem claim_C9_witness :
    (lambda_handler 2024 2023 (fun _ => HttpOutcome.response 404 (JsonBody.arr []))
        none none "now" (fun _ _ => "u") 0).fetched = yearRange 2023 2024
    ∧ List.Pairwise (· < ·) (yearRange 2023 2024)
    ∧ (∀ y : Int, y ∈ yearRange 2023 2024 ↔ 2023 ≤ y ∧ y ≤ 2024) :=
  claim_C9_theorem 2024 2023 _ none none "now" (fun _ _ => "u") 0 (by decide)

/-- Claim C10: normalization is total on any record: `procesado_en` is
always set to the processing timestamp; `fecha_hora_local` is always set,
null exactly when the merge yields nothing (in particular whenever the date
does not parse, the parser returning nothing rather than raising, also on
the empty string and on a missing value); and numeric coercion never drops
a key, every key of the record surviving `safe_convert_numbers`. -/
theorem claim_C10_theorem (L : Int) (now fresh : String) (rec : RecordMap) :
    dictGet (normalizeRecord L now fresh rec) "procesado_en" = some (Value.str now)
    ∧ (unir_fecha_hora L (dictGet rec "fecha_local") (dictGet rec "hora_local") = none →
        dictGet (normalizeRecord L now fresh rec) "fecha_hora_local" = some Value.null)
    ∧ (∀ s', unir_fecha_hora L (dictGet rec "fecha_local") (dictGet rec "hora_local") = some s' →
        dictGet (normalizeRecord L now fresh rec) "fecha_hora_local" = some (Value.str s'))
    ∧ (parse_iso_z (dictGet rec "fecha_local") = none →
        unir_fecha_hora L (dictGet rec "fecha_local") (dictGet rec "hora_local") = none)
    ∧ parse_iso_z (some (Value.str "")) = none
    ∧ parse_iso_z none = none
    ∧ (∀ k, (dictGet (safe_convert_numbers rec) k).isSome = (dictGet rec k).isSome) := by
  refine ⟨normalize_get_procesado L now fresh rec, ?_, ?_, ?_, rfl, rfl,
    fun k => safe_convert_isSome rec k⟩
  · intro h
    rw [normalize_get_fhl L now fresh rec, h]
  · intro s' h
    rw [normalize_get_fhl L now fresh rec, h]
  · intro h
    unfold unir_fecha_hora
    rw [h]

/-- Witness for claim C10 on a record with an unparseable date and on one
with a parseable date. -/
theorem claim_C10_witness :
    dictGet (normalizeRecord 0 "NOW" "u" [("fecha_local", Value.str "junk")]) "procesado_en"
      = some (Value.str "NOW")
    ∧ dictGet (normalizeRecord 0 "NOW" "u" [("fecha_local", Value.str "junk")]) "fecha_hora_local"
      = some Value.null
    ∧ dictGet (normalizeRecord 0 "NOW" "u" [("fecha_local", Value.str "2024-01-02T00:00:00Z")])
        "fecha_hora_local" = some (Value.str "2024-01-02T00:00:00Z")
    ∧ unir_fecha_hora 0 (dictGet [("fecha_local", Value.str "junk")] "fecha_local")
        (dictGet [("fecha_local", Value.str "junk")] "hora_local") = none :=
  ⟨(claim_C10_theorem 0 "NOW" "u" _).1,
   (claim_C10_theorem 0 "NOW" "u" [("fecha_local", Value.str "junk")]).2.1 (by decide),
   (claim_C10_theorem 0 "NOW" "u" [("fecha_local", Value.str "2024-01-02T00:00:00Z")]).2.2.1
     _ (by decide),
   (claim_C10_theorem 0 "NOW" "u" [("fecha_local", Value.str "junk")]).2.2.2.1 (by decide)⟩

end Sismos
